import Mathlib

/-!
Shallow embedding of the SMT surrogate-model base class (`smt/sm.py`) and its
result cache (`smt/utils/caching.py`).

Conventions of the embedding:
* NumPy 2-D arrays are lists of rows (`Mat := List (List ℚ)`); floating-point
  entries are modelled by rationals (no claim here depends on rounding).
* Python dicts are association lists with first-match lookup and
  update-or-append assignment (`alookup` / `aset`); insertion order of distinct
  keys is irrelevant to every property proved below.
* Python exceptions become an explicit `Err` value.  A function that can both
  mutate `self` and raise returns `State × Option Err`, keeping the mutations
  performed before the raise (as Python does); a function whose pre-raise
  mutations are irrelevant to the claims returns `Except Err _`.
* `np.linalg.norm` values are represented by their squares (`normSq`), which
  keeps the embedding inside ℚ; `sqrt` is strictly monotone on nonnegatives, so
  equalities and the zero/nonzero structure of the returned relative errors are
  faithfully represented.
* The printer component (`smt/utils/printer.py`) is an external reporting sink;
  it is modelled as opaque recorded state (`Printer`), and the lines/timings the
  lifecycle methods push into it are elided from the value-level embedding.
  The dict lookups those reporting statements perform on `sm_options` /
  `printf_options` (which can raise `KeyError`) are kept, including Python's
  short-circuit evaluation of `and`.
-/

set_option synthInstance.maxSize 512

namespace SMT

/-- First-match lookup in an association list (Python `d[k]` read). -/
def alookup {α β : Type} [DecidableEq α] : List (α × β) → α → Option β
  | [], _ => none
  | (k', v') :: t, k => if k = k' then some v' else alookup t k

/-- Update-or-append assignment in an association list (Python `d[k] = v`). -/
def aset {α β : Type} [DecidableEq α] : List (α × β) → α → β → List (α × β)
  | [], k, v => [(k, v)]
  | (k', v') :: t, k, v => if k = k' then (k, v) :: t else (k', v') :: aset t k v

/-- A NumPy 2-D array, as a list of rows of rationals. -/
abbrev Mat := List (List ℚ)

/-- The Python exceptions the embedded code can raise.  `shapeError` and
`missingDataError` are both `ValueError` in the source (bad `reshape`, resp.
the explicit "no training point data available" raise); they are distinguished
here by raise site.  `argumentError` is named by the specification's error
taxonomy but is raised nowhere in the source. -/
inductive Err : Type
  | shapeError
  | keyError
  | missingDataError
  | unboundLocalError
  | zeroDivisionError
  | argumentError
  deriving DecidableEq, Repr

/-- `training_pts[typ]`: derivative key ↦ `[X, Y]` pair. -/
abbrev DerivMap := List (Nat × (Mat × Mat))

/-- Modelled from the spec: the printer component (`smt/utils/printer.py` is
not part of the sources being verified) holds an activity toggle and recorded
timing measurements, which are run-to-run nondeterministic. -/
structure Printer : Type where
  active : Bool
  times : List (String × ℚ)
  deriving DecidableEq, Repr

/-- A fresh printer as built at model construction. -/
def Printer.mk0 : Printer := ⟨false, []⟩

/-- The state of an `SM` instance.  `dim` / `nt` are `none` until the
attributes are first assigned (reading them before would be an
`AttributeError`; no claim reads them before assignment).  The `printer`
attribute is an `Option` because `_caching_checksum_sm` temporarily assigns
`None` to it. -/
structure SMState : Type where
  sm_options : List (String × String)
  printf_options : List (String × Bool)
  training_pts : List (String × DerivMap)
  printer : Option Printer
  dim : Option Nat
  nt : Option Nat
  deriving DecidableEq, Repr

/-- Python `base.update(overrides)`: supplied keys overwrite, others kept. -/
def dictUpdate {β : Type} (base : List (String × β)) (upd : List (String × β)) :
    List (String × β) :=
  upd.foldl (fun d kv => aset d kv.1 kv.2) base

/-- `SM.__init__`: merge caller overrides into the defaults (owned by the
concrete algorithm subclass, hence parameters here), then create the store
with only the "exact" tier and a fresh printer. -/
def SM_init (defaultSmOptions : List (String × String))
    (defaultPrintfOptions : List (String × Bool))
    (sm_options : Option (List (String × String)))
    (printf_options : Option (List (String × Bool))) : SMState :=
  { sm_options := match sm_options with
      | none => defaultSmOptions
      | some o => dictUpdate defaultSmOptions o
    printf_options := match printf_options with
      | none => defaultPrintfOptions
      | some o => dictUpdate defaultPrintfOptions o
    training_pts := [("exact", [])]
    printer := some Printer.mk0
    dim := none
    nt := none }

/-- Row-major flattening of an array (NumPy's element order). -/
def matFlatten (m : Mat) : List ℚ := m.flatten

/-- The column vector `y.reshape((n, 1))` produces when it succeeds. -/
def colOf (y : Mat) : Mat := (matFlatten y).map (fun q => [q])

/-- `y.reshape((n, 1))`: succeeds iff `y` holds exactly `n` scalars, else
`ValueError` (modelled by `none`, mapped to `Err.shapeError` at the call). -/
def reshapeCol (n : Nat) (y : Mat) : Option Mat :=
  if (matFlatten y).length = n then some (colOf y) else none

/-- `x.shape[1]` for a nonempty list-of-rows array (a 0-row array does not
arise in any property below). -/
def numCols : Mat → Nat
  | [] => 0
  | r :: _ => r.length

/-- The derivative-index-to-key shift used by `add_training_pts` and
`predict`: `None ↦ 0`, `k ↦ k + 1`. -/
def kxToKey : Option Nat → Nat
  | none => 0
  | some k => k + 1

/-- The "Construct the input data" block of `SM.add_training_pts`: look up the
fidelity tier (`KeyError` if absent), then append to — or create — the entry at
derivative key `kx2`.  `yt2` is the already-reshaped column. -/
def addStore (sm : SMState) (typ : String) (xt yt2 : Mat) (kx2 : Nat) :
    SMState × Option Err :=
  match alookup sm.training_pts typ with
  | none => (sm, some .keyError)
  | some pts =>
    match alookup pts kx2 with
    | some e =>
      ({ sm with training_pts := aset sm.training_pts typ (aset pts kx2 (e.1 ++ xt, e.2 ++ yt2)) },
       none)
    | none =>
      ({ sm with training_pts := aset sm.training_pts typ (aset pts kx2 (xt, yt2)) },
       none)

/-- `SM.add_training_pts(typ, xt, yt, kx)`.  Returns the post-call state and
the exception, if any; mutations made before a raise are kept, as in Python
(in particular `dim` / `nt` are already assigned when the `typ` lookup
raises `KeyError`).  Source order: reshape `yt` first, then in the
`kx is None` branch assign `self.dim` / `self.nt` from this call's `xt`,
then mutate the store. -/
def add_training_pts (sm : SMState) (typ : String) (xt yt : Mat) (kx : Option Nat) :
    SMState × Option Err :=
  match reshapeCol xt.length yt with
  | none => (sm, some .shapeError)
  | some yt2 =>
    addStore
      (match kx with
        | none => { sm with dim := some (numCols xt), nt := some xt.length }
        | some _ => sm)
      typ xt yt2 (kxToKey kx)

/-- The `(X, Y)` pair stored for fidelity `typ` at derivative key `k`. -/
def storeEntry (sm : SMState) (typ : String) (k : Nat) : Option (Mat × Mat) :=
  match alookup sm.training_pts typ with
  | none => none
  | some pts => alookup pts k

/-- Sum of squares of all entries: the square of `np.linalg.norm`. -/
def normSq (m : Mat) : ℚ := (matFlatten m).foldl (fun a q => a + q * q) 0

/-- Elementwise difference of two same-shaped arrays (the only way the
lifecycle code subtracts them). -/
def matSub (a b : Mat) : Mat := List.zipWith (List.zipWith (· - ·)) a b

/-- `SM.predict(x, kx)`, with the algorithm-specific `evaluate` hook as a
parameter.  Keeps, in source order: the reporting-toggle lookups (with
Python's short-circuit of `and`), the `sm_options['name']` lookup, the
key shift, the call to `evaluate`, the `printer._time('prediction') /
n_evals` division, and the final `y.reshape(n_evals, 1)`. -/
def predict (evaluate : Mat → Nat → Mat) (sm : SMState) (x : Mat) (kx : Option Nat) :
    Except Err Mat :=
  let n_evals := x.length
  match alookup sm.printf_options "global" with
  | none => .error .keyError
  | some g =>
    match (if g then alookup sm.printf_options "time_eval" else some false) with
    | none => .error .keyError
    | some _ =>
      match alookup sm.sm_options "name" with
      | none => .error .keyError
      | some _nm =>
        let kx2 := kxToKey kx
        let y := evaluate x kx2
        if n_evals = 0 then .error .zeroDivisionError
        else
          match reshapeCol n_evals y with
          | none => .error .shapeError
          | some y2 => .ok y2

/-- `SM.compute_rms_error(xe, ye, kx)`.  The source is an
`if xe/ye both given … elif neither given … ` chain with no `else`, so the
mixed cases fall off the end and return Python `None` (`Except.ok none`
here).  In the neither-given branch the source runs `kx2 = 0` when `kx is
None` but `kx2 += 1` when `kx` is an integer — `kx2` is unbound there, so
that path raises `UnboundLocalError` before touching the store.  Returned
norms are represented by their squares (see the module docstring): the
source's `‖·‖ / ‖·‖` and `num ** 0.5 / den ** 0.5` both appear as
`normSq _ / normSq _`. -/
def compute_rms_error (evaluate : Mat → Nat → Mat) (sm : SMState)
    (xe ye : Option Mat) (kx : Option Nat) : Except Err (Option ℚ) :=
  match xe, ye with
  | some xev, some yev =>
    (match predict evaluate sm xev kx with
     | .error e => .error e
     | .ok ye2 => .ok (some (normSq (matSub ye2 yev) / normSq yev)))
  | none, none =>
    (match kx with
     | some _ => .error .unboundLocalError
     | none =>
       let kx2 := 0
       match alookup sm.training_pts "exact" with
       | none => .error .keyError
       | some pts =>
         match alookup pts kx2 with
         | none => .error .missingDataError
         | some entry =>
           match predict evaluate sm entry.1 kx with
           | .error e => .error e
           | .ok yt2 => .ok (some (normSq (matSub yt2 entry.2) / normSq entry.2)))
  | some _, none => .ok none
  | none, some _ => .ok none

/-- `SM.train()`, with the algorithm-specific `fit` hook as a parameter.
Source order: `self.training_pts['exact'][0][0].shape[0]` (two dict lookups,
each a possible `KeyError`), then the reporting lookups of
`printf_options['global']`, `sm_options['name']`, and — only when `global`
is truthy, by `and` short-circuit — `printf_options['problem']` and
`printf_options['time_train']`, then `fit`. -/
def train (fit : SMState → Except Err SMState) (sm : SMState) : Except Err SMState :=
  match alookup sm.training_pts "exact" with
  | none => .error .keyError
  | some pts =>
    match alookup pts 0 with
    | none => .error .keyError
    | some entry =>
      let _n_exact := entry.1.length
      match alookup sm.printf_options "global" with
      | none => .error .keyError
      | some g =>
        match alookup sm.sm_options "name" with
        | none => .error .keyError
        | some _nm =>
          match (if g then alookup sm.printf_options "problem" else some false) with
          | none => .error .keyError
          | some _ =>
            match (if g then alookup sm.printf_options "time_train" else some false) with
            | none => .error .keyError
            | some _ => fit sm

/-! ## The result cache (`smt/utils/caching.py`)

The filesystem is a map from filename to the record stored there; a record is
either a structurally valid pickled `{'checksum': c, 'data': d}` dict or
unreadable/corrupt bytes (any pickle failure).  Checksums are hex digest
strings modelled by their numeric value. -/

/-- What a cache file can hold. -/
inductive CacheRec (α : Type) : Type
  | valid (checksum : Nat) (data : α)
  | corrupt
  deriving DecidableEq, Repr

/-- The filesystem the cache reads and writes. -/
abbrev FileSys (α : Type) := List (String × CacheRec α)

/-- `_caching_load(filename, checksum)`: a bare `try/except` around the read,
so a missing file, an unpicklable record, and a checksum mismatch all return
`(False, None)`; only a valid record whose stored checksum equals the given
one returns `(True, data)`.  Nothing propagates. -/
def _caching_load {α : Type} (fs : FileSys α) (filename : String) (checksum : Nat) :
    Bool × Option α :=
  match alookup fs filename with
  | some (.valid c d) => if checksum = c then (true, some d) else (false, none)
  | some .corrupt => (false, none)
  | none => (false, none)

/-- `_caching_save(filename, checksum, data)`: pickle `{'checksum': …,
'data': …}` to the file, replacing whatever was there (`open(filename, 'w')`
truncates). -/
def _caching_save {α : Type} (fs : FileSys α) (filename : String) (checksum : Nat)
    (data : α) : FileSys α :=
  aset fs filename (.valid checksum data)

/-- A concrete byte encoding of a string (length-prefixed code points),
standing in for its pickle serialization. -/
def encodeString (s : String) : List Nat := s.length :: s.data.map Char.toNat

/-- Byte encoding of a rational (sign, numerator magnitude, denominator). -/
def encodeQ (q : ℚ) : List Nat := [if q.num < 0 then 1 else 0, q.num.natAbs, q.den]

/-- Length-prefixed encoding of a list. -/
def encodeList {α : Type} (f : α → List Nat) (l : List α) : List Nat :=
  l.length :: (l.map f).flatten

/-- Byte encoding of an array. -/
def encodeMat : Mat → List Nat := encodeList (encodeList encodeQ)

/-- Byte encoding of one derivative-key entry of the store. -/
def encodeDerivEntry (e : Nat × (Mat × Mat)) : List Nat :=
  e.1 :: (encodeMat e.2.1 ++ encodeMat e.2.2)

/-- Modelled from the spec: `pickle.dumps` on the tuple
`(sm_options, training_pts)` (the Python `pickle` module is an external
library).  Any deterministic, content-only serialization satisfies the
cache-validity properties; this is a concrete one. -/
def pickleDumps (p : List (String × String) × List (String × DerivMap)) : List Nat :=
  encodeList (fun kv => encodeString kv.1 ++ encodeString kv.2) p.1 ++
    encodeList (fun kv => encodeString kv.1 ++ encodeList encodeDerivEntry kv.2) p.2

/-- Modelled from the spec: `hashlib.md5(bytes).hexdigest()` is an external
cryptographic digest; it is modelled as a deterministic 128-bit fold of the
byte stream (the claims rely only on its being a function of the bytes). -/
def md5hex (bytes : List Nat) : Nat :=
  bytes.foldl (fun h b => (h * 65599 + b + 1) % 2 ^ 128) 0

/-- `_caching_checksum(obj)` = `md5(pickle.dumps(obj)).hexdigest()`, at the
one argument type the repository applies it to (the options/store pair). -/
def _caching_checksum (p : List (String × String) × List (String × DerivMap)) : Nat :=
  md5hex (pickleDumps p)

/-- `_caching_checksum_sm(sm)`: stash `sm.printer`, set it to `None`, hash the
tuple `(sm.sm_options, sm.training_pts)`, restore the printer.  Returns the
checksum together with the state of `sm` after the call (the temporary
mutation is undone). -/
def _caching_checksum_sm (sm : SMState) : Nat × SMState :=
  let tmp := sm.printer
  let sm1 : SMState := { sm with printer := none }
  let checksum := _caching_checksum (sm1.sm_options, sm1.training_pts)
  let sm2 : SMState := { sm1 with printer := tmp }
  (checksum, sm2)

/-- The row-count symmetry invariant of a raw store: every `(X, Y)` pair held
under any fidelity tier and derivative key has as many `Y` rows as `X` rows. -/
def StoreInvOn (store : List (String × DerivMap)) : Prop :=
  ∀ typ pts, alookup store typ = some pts →
    ∀ k e, alookup pts k = some e → (e : Mat × Mat).1.length = e.2.length

/-- The store invariant, read off a model state. -/
def StoreInv (sm : SMState) : Prop := StoreInvOn sm.training_pts

/-- A trivial algorithm `evaluate` hook (predicts 0 everywhere), used by the
closed concrete instances below. -/
def evZero : Mat → Nat → Mat := fun x _ => x.map (fun _ => [0])

/-- A concretely constructed model: the constructor applied to a minimal
default-option set and no caller overrides. -/
def smEmpty : SMState :=
  SM_init [("name", "LS")]
    [("global", true), ("problem", true), ("time_train", true), ("time_eval", true)]
    none none

/-- `smEmpty` with a printer that has recorded a timing measurement: same
options and training data, different reporting state. -/
def smTimer : SMState :=
  { smEmpty with printer := some ⟨true, [("prediction", 5)]⟩ }

/-! ## Helper lemmas -/

theorem alookup_aset_self {α β : Type} [DecidableEq α] (l : List (α × β)) (k : α) (v : β) :
    alookup (aset l k v) k = some v := by
  induction l with
  | nil => simp [aset, alookup]
  | cons p t ih =>
    by_cases h : k = p.1
    · simp [aset, alookup, h]
    · simp [aset, alookup, h, ih]

theorem alookup_aset_ne {α β : Type} [DecidableEq α] (l : List (α × β)) (k k' : α) (v : β)
    (h : k' ≠ k) : alookup (aset l k v) k' = alookup l k' := by
  induction l with
  | nil => simp [aset, alookup, h]
  | cons p t ih =>
    by_cases hk : k = p.1
    · subst hk
      simp [aset, alookup, h]
    · by_cases hk' : k' = p.1
      · simp [aset, alookup, hk, hk']
      · simp [aset, alookup, hk, hk', ih]

theorem colOf_length (y : Mat) : (colOf y).length = (matFlatten y).length := by
  simp [colOf]

theorem colOf_rows (y : Mat) : ∀ r ∈ colOf y, r.length = 1 := by
  intro r hr
  simp only [colOf, List.mem_map] at hr
  obtain ⟨q, _, rfl⟩ := hr
  rfl

theorem reshapeCol_eq_some {n : Nat} {y yt2 : Mat} :
    reshapeCol n y = some yt2 ↔ (matFlatten y).length = n ∧ yt2 = colOf y := by
  unfold reshapeCol
  by_cases h : (matFlatten y).length = n
  · simp [h, eq_comm]
  · simp [h]

theorem reshapeCol_eq_none {n : Nat} {y : Mat} :
    reshapeCol n y = none ↔ (matFlatten y).length ≠ n := by
  unfold reshapeCol
  by_cases h : (matFlatten y).length = n <;> simp [h]

theorem addStore_dim_nt (sm : SMState) (typ : String) (xt yt2 : Mat) (kx2 : Nat) :
    (addStore sm typ xt yt2 kx2).1.dim = sm.dim ∧
    (addStore sm typ xt yt2 kx2).1.nt = sm.nt := by
  unfold addStore
  split
  · exact ⟨rfl, rfl⟩
  · split
    · exact ⟨rfl, rfl⟩
    · exact ⟨rfl, rfl⟩

theorem storeInvOn_aset (store : List (String × DerivMap)) (pts : DerivMap)
    (typ : String) (k : Nat) (e : Mat × Mat)
    (hinv : StoreInvOn store) (hpts : alookup store typ = some pts)
    (he : e.1.length = e.2.length) :
    StoreInvOn (aset store typ (aset pts k e)) := by
  intro typ' pts' h' k' e' h''
  by_cases ht : typ' = typ
  · subst ht
    rw [alookup_aset_self] at h'
    cases h'
    by_cases hk : k' = k
    · subst hk
      rw [alookup_aset_self] at h''
      cases h''
      exact he
    · rw [alookup_aset_ne _ _ _ _ hk] at h''
      exact hinv typ' pts hpts k' e' h''
  · rw [alookup_aset_ne _ _ _ _ ht] at h'
    exact hinv typ' pts' h' k' e' h''

theorem storeInvOn_addStore (sm : SMState) (typ : String) (xt yt2 : Mat) (kx2 : Nat)
    (hinv : StoreInvOn sm.training_pts) (hlen : xt.length = yt2.length) :
    StoreInvOn (addStore sm typ xt yt2 kx2).1.training_pts := by
  unfold addStore
  split
  · exact hinv
  · next pts hp =>
    split
    · next e he =>
      refine storeInvOn_aset sm.training_pts pts typ kx2 (e.1 ++ xt, e.2 ++ yt2) hinv hp ?_
      have h0 : e.1.length = e.2.length := hinv typ pts hp kx2 e he
      simp [h0, hlen]
    · next he =>
      exact storeInvOn_aset sm.training_pts pts typ kx2 (xt, yt2) hinv hp hlen

theorem storeInv_smEmpty : StoreInv smEmpty := by
  intro typ pts h k e he
  by_cases ht : typ = "exact"
  · subst ht
    have h0 : alookup smEmpty.training_pts "exact" = some ([] : DerivMap) := rfl
    rw [h0] at h
    cases h
    simp [alookup] at he
  · have h0 : alookup smEmpty.training_pts typ = none := by
      show alookup [("exact", ([] : DerivMap))] typ = none
      simp [alookup, ht]
    rw [h0] at h
    exact Option.noConfusion h

/-! ## Claim theorems -/

/-- C1: the claim says self-check-mode `compute_rms_error` with
`derivative_index = k` looks up the stored pair at key `k + 1` and returns the
relative error there.  The code instead executes `kx2 += 1` with `kx2` unbound
whenever `kx` is an integer, so every such call raises `UnboundLocalError`
before consulting the store — for every model state, every evaluate hook and
every `k`. -/
theorem compute_rms_error_selfcheck_deriv_raises_unbound (evaluate : Mat → Nat → Mat)
    (sm : SMState) (k : Nat) :
    compute_rms_error evaluate sm none none (some k) = Except.error Err.unboundLocalError :=
  rfl

/-- C2 (counterexample): supplying only `X_eval` does not fail with an
`ArgumentError` — at this concrete input the call returns Python `None`
(`Except.ok none`), no exception of any kind. -/
theorem compute_rms_error_partial_args_cex :
    compute_rms_error evZero smEmpty (some [[1]]) none none = Except.ok none :=
  rfl

/-- C2 (amended): supplying exactly one of `X_eval` / `Y_eval` falls through
both branches of the `if/elif` chain and returns Python `None` silently — no
`ArgumentError` is raised and no numeric value is produced. -/
theorem compute_rms_error_partial_args_return_none (evaluate : Mat → Nat → Mat)
    (sm : SMState) (kx : Option Nat) :
    (∀ xe : Mat, compute_rms_error evaluate sm (some xe) none kx = Except.ok none) ∧
    (∀ ye : Mat, compute_rms_error evaluate sm none (some ye) kx = Except.ok none) :=
  ⟨fun _ => rfl, fun _ => rfl⟩

/-- C3: when the ('exact', 0) entry was never populated, `train` fails at the
`training_pts['exact'][0]` lookup (`KeyError`) and value-mode self-check
`compute_rms_error` fails with the "no training point data available"
`ValueError` — the missing-data failures the claim describes.  But for an
integer `derivative_index` the code raises `UnboundLocalError` before the
missing-data check is ever reached, so the `MissingDataError` the claim
promises for unpopulated derivative keys never happens. -/
theorem train_selfcheck_missing_data_raise (fit : SMState → Except Err SMState)
    (evaluate : Mat → Nat → Mat) (sm : SMState) (pts : DerivMap)
    (hex : alookup sm.training_pts "exact" = some pts)
    (h0 : alookup pts 0 = none) :
    train fit sm = Except.error Err.keyError ∧
    compute_rms_error evaluate sm none none none = Except.error Err.missingDataError ∧
    ∀ k : Nat, compute_rms_error evaluate sm none none (some k) =
      Except.error Err.unboundLocalError := by
  refine ⟨?_, ?_, fun k => rfl⟩
  · simp [train, hex, h0]
  · simp [compute_rms_error, hex, h0]

/-- Witness for C3 at the freshly constructed model. -/
theorem train_selfcheck_missing_data_raise_witness :
    alookup smEmpty.training_pts "exact" = some ([] : DerivMap) ∧
    alookup ([] : DerivMap) 0 = none ∧
    (train Except.ok smEmpty = Except.error Err.keyError ∧
     compute_rms_error evZero smEmpty none none none = Except.error Err.missingDataError ∧
     ∀ k : Nat, compute_rms_error evZero smEmpty none none (some k) =
       Except.error Err.unboundLocalError) :=
  ⟨rfl, rfl, train_selfcheck_missing_data_raise Except.ok evZero smEmpty [] rfl rfl⟩

/-- C4 (counterexample): `dim` / `nt` are not "recorded only on the first
insertion": a first value append of 1 row records `nt = 1`, and a second value
append of 2 rows overwrites it with `nt = 2`. -/
theorem add_training_pts_dim_nt_cex :
    (add_training_pts smEmpty "exact" [[1, 2]] [[10]] none).1.nt = some 1 ∧
    (add_training_pts (add_training_pts smEmpty "exact" [[1, 2]] [[10]] none).1
        "exact" [[3, 4], [5, 6]] [[11], [12]] none).1.nt = some 2 :=
  ⟨rfl, rfl⟩

/-- C4 (amended): `dim` and `nt` are (re)assigned on every function-value
insertion (`kx = None`), from that call's `X` alone — its column count and its
row count — while derivative insertions leave both unchanged; hence a second
function-value append overwrites them with the second batch's shape. -/
theorem add_training_pts_dim_nt_every_value_insert (sm : SMState) (typ : String)
    (xt yt : Mat) (h : (matFlatten yt).length = xt.length) :
    ((add_training_pts sm typ xt yt none).1.dim = some (numCols xt) ∧
     (add_training_pts sm typ xt yt none).1.nt = some xt.length) ∧
    ∀ k : Nat, (add_training_pts sm typ xt yt (some k)).1.dim = sm.dim ∧
      (add_training_pts sm typ xt yt (some k)).1.nt = sm.nt := by
  have hr : reshapeCol xt.length yt = some (colOf yt) := by
    unfold reshapeCol
    rw [if_pos h]
  constructor
  · have heq : add_training_pts sm typ xt yt none =
        addStore { sm with dim := some (numCols xt), nt := some xt.length }
          typ xt (colOf yt) (kxToKey none) := by
      unfold add_training_pts
      rw [hr]
    rw [heq]
    have h1 := addStore_dim_nt { sm with dim := some (numCols xt), nt := some xt.length }
      typ xt (colOf yt) (kxToKey none)
    exact ⟨h1.1, h1.2⟩
  · intro k
    have heq : add_training_pts sm typ xt yt (some k) =
        addStore sm typ xt (colOf yt) (kxToKey (some k)) := by
      unfold add_training_pts
      rw [hr]
    rw [heq]
    exact addStore_dim_nt sm typ xt (colOf yt) (kxToKey (some k))

/-- Witness for the amended C4 at a concrete 1-row, 2-column value insertion. -/
theorem add_training_pts_dim_nt_every_value_insert_witness :
    (matFlatten [[(10 : ℚ)]]).length = ([[(1 : ℚ), 2]] : Mat).length ∧
    (((add_training_pts smEmpty "exact" [[(1 : ℚ), 2]] [[(10 : ℚ)]] none).1.dim =
        some (numCols [[(1 : ℚ), 2]]) ∧
      (add_training_pts smEmpty "exact" [[(1 : ℚ), 2]] [[(10 : ℚ)]] none).1.nt =
        some ([[(1 : ℚ), 2]] : Mat).length) ∧
     ∀ k : Nat,
       (add_training_pts smEmpty "exact" [[(1 : ℚ), 2]] [[(10 : ℚ)]] (some k)).1.dim =
         smEmpty.dim ∧
       (add_training_pts smEmpty "exact" [[(1 : ℚ), 2]] [[(10 : ℚ)]] (some k)).1.nt =
         smEmpty.nt) :=
  ⟨rfl, add_training_pts_dim_nt_every_value_insert smEmpty "exact" [[(1 : ℚ), 2]]
    [[(10 : ℚ)]] rfl⟩

/-- C5: two appends to the same (fresh) fidelity/derivative key accumulate —
the stored pair is the rows of `X1` followed by the rows of `X2` (likewise for
the reshaped `Y`), with row count `|X1| + |X2|`, no deduplication. -/
theorem add_training_pts_append_accumulates (sm : SMState) (typ : String)
    (x1 y1 x2 y2 : Mat) (kx : Option Nat) (pts : DerivMap)
    (hpts : alookup sm.training_pts typ = some pts)
    (hfresh : alookup pts (kxToKey kx) = none)
    (h1 : (matFlatten y1).length = x1.length)
    (h2 : (matFlatten y2).length = x2.length) :
    storeEntry (add_training_pts (add_training_pts sm typ x1 y1 kx).1 typ x2 y2 kx).1
        typ (kxToKey kx) = some (x1 ++ x2, colOf y1 ++ colOf y2) ∧
    (x1 ++ x2).length = x1.length + x2.length := by
  have hr1 : reshapeCol x1.length y1 = some (colOf y1) := by
    unfold reshapeCol
    rw [if_pos h1]
  have hr2 : reshapeCol x2.length y2 = some (colOf y2) := by
    unfold reshapeCol
    rw [if_pos h2]
  refine ⟨?_, by simp⟩
  cases kx with
  | none =>
    have hf : alookup pts 0 = none := hfresh
    simp only [add_training_pts, hr1, hr2, kxToKey, addStore, hpts, hf,
      alookup_aset_self, storeEntry]
  | some k =>
    have hf : alookup pts (k + 1) = none := hfresh
    simp only [add_training_pts, hr1, hr2, kxToKey, addStore, hpts, hf,
      alookup_aset_self, storeEntry]

/-- Witness for C5: two appends of one point each at the value key. -/
theorem add_training_pts_append_accumulates_witness :
    alookup smEmpty.training_pts "exact" = some ([] : DerivMap) ∧
    alookup ([] : DerivMap) (kxToKey none) = none ∧
    (matFlatten [[(2 : ℚ)]]).length = ([[(1 : ℚ)]] : Mat).length ∧
    (matFlatten [[(4 : ℚ)]]).length = ([[(3 : ℚ)]] : Mat).length ∧
    (storeEntry (add_training_pts
        (add_training_pts smEmpty "exact" [[(1 : ℚ)]] [[(2 : ℚ)]] none).1
        "exact" [[(3 : ℚ)]] [[(4 : ℚ)]] none).1 "exact" (kxToKey none) =
      some ([[(1 : ℚ)]] ++ [[(3 : ℚ)]], colOf [[(2 : ℚ)]] ++ colOf [[(4 : ℚ)]]) ∧
     (([[(1 : ℚ)]] : Mat) ++ [[(3 : ℚ)]]).length =
       ([[(1 : ℚ)]] : Mat).length + ([[(3 : ℚ)]] : Mat).length) :=
  ⟨rfl, rfl, rfl, rfl,
   add_training_pts_append_accumulates smEmpty "exact" [[(1 : ℚ)]] [[(2 : ℚ)]]
     [[(3 : ℚ)]] [[(4 : ℚ)]] none [] rfl rfl rfl rfl⟩

/-- C6: `add_training_pts` preserves the `|X| = |Y|` row-symmetry invariant on
every fidelity/derivative key; a `Y` whose scalar count differs from `X`'s row
count fails with the reshape `ValueError` leaving the state untouched; a `Y`
with exactly `n` scalars is stored as the `(n, 1)` column `colOf yt`. -/
theorem add_training_pts_preserves_row_symmetry (sm : SMState) (typ : String)
    (xt yt : Mat) (kx : Option Nat) (hinv : StoreInv sm) :
    StoreInv (add_training_pts sm typ xt yt kx).1 ∧
    ((matFlatten yt).length ≠ xt.length →
      add_training_pts sm typ xt yt kx = (sm, some Err.shapeError)) ∧
    ((matFlatten yt).length = xt.length →
      (colOf yt).length = xt.length ∧ ∀ r ∈ colOf yt, r.length = 1) := by
  refine ⟨?_, ?_, fun h => ⟨(colOf_length yt).trans h, colOf_rows yt⟩⟩
  · unfold add_training_pts
    cases hr : reshapeCol xt.length yt with
    | none => exact hinv
    | some yt2 =>
      have hl : xt.length = yt2.length := by
        obtain ⟨hh, rfl⟩ := reshapeCol_eq_some.mp hr
        rw [colOf_length, hh]
      cases kx with
      | none => exact storeInvOn_addStore _ typ xt yt2 (kxToKey none) hinv hl
      | some k => exact storeInvOn_addStore _ typ xt yt2 (kxToKey (some k)) hinv hl
  · intro h
    have hr : reshapeCol xt.length yt = none := reshapeCol_eq_none.mpr h
    unfold add_training_pts
    rw [hr]

/-- Witness for C6 at a concrete insertion into the fresh model. -/
theorem add_training_pts_preserves_row_symmetry_witness :
    StoreInv smEmpty ∧
    (StoreInv (add_training_pts smEmpty "exact" [[(1 : ℚ)]] [[(2 : ℚ)]] none).1 ∧
     ((matFlatten [[(2 : ℚ)]]).length ≠ ([[(1 : ℚ)]] : Mat).length →
       add_training_pts smEmpty "exact" [[(1 : ℚ)]] [[(2 : ℚ)]] none =
         (smEmpty, some Err.shapeError)) ∧
     ((matFlatten [[(2 : ℚ)]]).length = ([[(1 : ℚ)]] : Mat).length →
       (colOf [[(2 : ℚ)]]).length = ([[(1 : ℚ)]] : Mat).length ∧
       ∀ r ∈ colOf [[(2 : ℚ)]], r.length = 1)) :=
  ⟨storeInv_smEmpty,
   add_training_pts_preserves_row_symmetry smEmpty "exact" [[(1 : ℚ)]] [[(2 : ℚ)]]
     none storeInv_smEmpty⟩

/-- C7: `_caching_load` returns `(True, data)` exactly when the location holds
a structurally valid record whose stored checksum equals the expected one; in
every other situation — missing location, corrupt record, or checksum
mismatch — it returns `(False, None)`, and (being a total function into
`Bool × Option α`) it propagates nothing. -/
theorem caching_load_hit_characterization {α : Type} (fs : FileSys α) (f : String)
    (c : Nat) :
    (∀ d : α, _caching_load fs f c = (true, some d) ↔
      alookup fs f = some (CacheRec.valid c d)) ∧
    ((∀ d : α, alookup fs f ≠ some (CacheRec.valid c d)) →
      _caching_load fs f c = (false, none)) := by
  cases h : alookup fs f with
  | none => simp [_caching_load, h]
  | some r =>
    cases r with
    | corrupt => simp [_caching_load, h]
    | valid c' d' =>
      by_cases hc : c = c'
      · subst hc
        refine ⟨fun d => ?_, fun hno => absurd rfl (hno d')⟩
        simp [_caching_load, h]
      · refine ⟨fun d => ?_, fun _ => ?_⟩
        · simp [_caching_load, h, hc, Ne.symm hc]
        · simp [_caching_load, h, hc]

/-- Witness for C7: a hit on a matching record, a miss on a missing file. -/
theorem caching_load_hit_characterization_witness :
    _caching_load [("a", CacheRec.valid 5 (3 : Nat))] "a" 5 = (true, some 3) ∧
    _caching_load ([] : FileSys Nat) "a" 5 = (false, none) :=
  ⟨((caching_load_hit_characterization [("a", CacheRec.valid 5 (3 : Nat))] "a" 5).1 3).mpr
      rfl,
   (caching_load_hit_characterization ([] : FileSys Nat) "a" 5).2
      (fun d h => by simp [alookup] at h)⟩

/-- C8: a save followed by a load at the same location with the same checksum
hits and yields the saved payload; the save overwrote whatever record was at
that location before. -/
theorem caching_save_then_load_roundtrip {α : Type} (fs : FileSys α) (f : String)
    (c : Nat) (d : α) :
    _caching_load (_caching_save fs f c d) f c = (true, some d) ∧
    alookup (_caching_save fs f c d) f = some (CacheRec.valid c d) := by
  have h : alookup (_caching_save fs f c d) f = some (CacheRec.valid c d) :=
    alookup_aset_self fs f (CacheRec.valid c d)
  exact ⟨by simp [_caching_load, h], h⟩

/-- C9: `_caching_checksum_sm` hashes exactly `(sm_options, training_pts)`
with the printer detached, so two models with identical options and identical
training data — whatever their reporting/printer state — get identical
checksums. -/
theorem caching_checksum_sm_ignores_reporting_state (m1 m2 : SMState)
    (ho : m1.sm_options = m2.sm_options) (hd : m1.training_pts = m2.training_pts) :
    (_caching_checksum_sm m1).1 = (_caching_checksum_sm m2).1 := by
  show _caching_checksum (m1.sm_options, m1.training_pts) =
      _caching_checksum (m2.sm_options, m2.training_pts)
  rw [ho, hd]

/-- Witness for C9: the fresh model and the same model with a recorded timing
measurement in its printer hash identically. -/
theorem caching_checksum_sm_ignores_reporting_state_witness :
    smEmpty.sm_options = smTimer.sm_options ∧
    smEmpty.training_pts = smTimer.training_pts ∧
    (_caching_checksum_sm smEmpty).1 = (_caching_checksum_sm smTimer).1 :=
  ⟨rfl, rfl, caching_checksum_sm_ignores_reporting_state smEmpty smTimer rfl rfl⟩

/-- C10: the constructor only ever creates the "exact" tier, so on a fresh
model `add_training_pts` with any other fidelity tag (once the `Y` reshape has
succeeded) raises `KeyError` at the `training_pts[typ]` lookup and does not
create the tier. -/
theorem add_training_pts_unknown_fidelity_keyerror
    (dso : List (String × String)) (dpo : List (String × Bool))
    (so : Option (List (String × String))) (po : Option (List (String × Bool)))
    (typ : String) (xt yt : Mat) (kx : Option Nat)
    (htyp : typ ≠ "exact")
    (hsh : (matFlatten yt).length = xt.length) :
    (add_training_pts (SM_init dso dpo so po) typ xt yt kx).2 = some Err.keyError ∧
    alookup (add_training_pts (SM_init dso dpo so po) typ xt yt kx).1.training_pts
      typ = none := by
  have hr : reshapeCol xt.length yt = some (colOf yt) := by
    unfold reshapeCol
    rw [if_pos hsh]
  have hnone : ∀ (s : SMState) (kx2 : Nat), s.training_pts = [("exact", [])] →
      addStore s typ xt (colOf yt) kx2 = (s, some Err.keyError) := by
    intro s kx2 hs
    unfold addStore
    rw [hs]
    simp [alookup, htyp]
  cases kx with
  | none =>
    have heq : add_training_pts (SM_init dso dpo so po) typ xt yt none =
        addStore { SM_init dso dpo so po with
          dim := some (numCols xt), nt := some xt.length } typ xt (colOf yt)
          (kxToKey none) := by
      unfold add_training_pts
      rw [hr]
    rw [heq, hnone _ _ rfl]
    refine ⟨rfl, ?_⟩
    show alookup [("exact", ([] : DerivMap))] typ = none
    simp [alookup, htyp]
  | some k =>
    have heq : add_training_pts (SM_init dso dpo so po) typ xt yt (some k) =
        addStore (SM_init dso dpo so po) typ xt (colOf yt) (kxToKey (some k)) := by
      unfold add_training_pts
      rw [hr]
    rw [heq, hnone _ _ rfl]
    refine ⟨rfl, ?_⟩
    show alookup [("exact", ([] : DerivMap))] typ = none
    simp [alookup, htyp]

/-- Witness for C10: the reserved "approx" tag on a fresh model. -/
theorem add_training_pts_unknown_fidelity_keyerror_witness :
    ("approx" : String) ≠ "exact" ∧
    (matFlatten [[(5 : ℚ)]]).length = ([[(1 : ℚ)]] : Mat).length ∧
    ((add_training_pts (SM_init [("name", "LS")] [("global", true)] none none)
        "approx" [[(1 : ℚ)]] [[(5 : ℚ)]] none).2 = some Err.keyError ∧
     alookup (add_training_pts (SM_init [("name", "LS")] [("global", true)] none none)
        "approx" [[(1 : ℚ)]] [[(5 : ℚ)]] none).1.training_pts "approx" = none) :=
  ⟨by decide, rfl,
   add_training_pts_unknown_fidelity_keyerror [("name", "LS")] [("global", true)]
     none none "approx" [[(1 : ℚ)]] [[(5 : ℚ)]] none (by decide) rfl⟩

end SMT
